import Mathlib

/-!
# Verification of the USDe yield-optimization backend

Shallow embedding of `src/usde-optimization-engine/backend/server.py`
(the `YieldOptimizer` class and the rebalance / risk-metrics endpoints).

Modelling conventions:
* Python floats are modelled as exact rationals (`ℚ`); the single spot
  where an irrational value appears (the square root inside the Sharpe
  ratio) is modelled over `ℝ` with `Real.sqrt`.
* The external SciPy call `minimize(objective, x0, method='SLSQP', ...)`
  is an external library, not repository code.  It is modelled as an
  oracle input `SolverResult`: a success flag plus the vector `x` it
  returns.  Per the SciPy contract, `result.fun` is the objective
  evaluated at `result.x`, which is how it is defined below.
* The Gaussian noise draw `np.random.normal(0, 0.02, n)` is modelled as
  an injected noise vector (one rational per protocol); the code puts no
  bound on the draw, so the model quantifies over arbitrary noise.
-/

open Finset

/-- Number of protocols in the registry (`self.protocols` has 4 entries). -/
def n_assets : ℕ := 4

/-- Registry protocol names, in dict insertion order (server.py lines 15-20). -/
def protocol_names : List String :=
  ["Strata Finance", "Terminal Finance", "Ethereal Finance", "USDe Staking"]

/-- Registry `base_apy` column, in registry order (server.py lines 15-20). -/
def base_apys : Fin 4 → ℚ := ![12.5, 15.8, 18.2, 8.5]

/-- Registry `risk_factor` column, in registry order (server.py lines 15-20). -/
def risk_factors : Fin 4 → ℚ := ![0.15, 0.25, 0.35, 0.05]

/-- Registry `risk_factor` values as the list built at server.py line 203. -/
def registry_risk_list : List ℚ := [0.15, 0.25, 0.35, 0.05]

/-- The covariance matrix of server.py lines 41-42:
`cov_matrix = np.outer(risk_factors, risk_factors) * 0.5` followed by
`np.fill_diagonal(cov_matrix, risk_factors ** 2)`.  After the two
statements entry `(i,j)` is `r i ^ 2` on the diagonal and
`r i * r j * 0.5` off it. -/
def cov_matrix {n : ℕ} (r : Fin n → ℚ) : Fin n → Fin n → ℚ :=
  fun i j => if i = j then r i ^ 2 else r i * r j * (1/2)

/-- `np.dot(weights.T, np.dot(cov_matrix, weights))`: the quadratic form
`wᵀ C w` appearing under the square root at server.py line 25. -/
def quad_form {n : ℕ} (C : Fin n → Fin n → ℚ) (w : Fin n → ℚ) : ℚ :=
  ∑ i, w i * ∑ j, C i j * w j

/-- `YieldOptimizer.calculate_sharpe_ratio` (server.py lines 22-26):
`(np.sum(returns * weights) - risk_free_rate) / sqrt(wᵀ C w)`.
The square root forces `ℝ`.  The Python default `risk_free_rate=0.03`
is passed explicitly by the one internal caller. -/
noncomputable def calculate_sharpe_ratio {n : ℕ} (weights returns : Fin n → ℚ)
    (C : Fin n → Fin n → ℚ) (risk_free_rate : ℚ) : ℝ :=
  (((∑ i, returns i * weights i) - risk_free_rate : ℚ) : ℝ) /
    Real.sqrt ((quad_form C weights : ℚ) : ℝ)

/-- The market state computed at server.py lines 33-42: noisy expected
returns plus the covariance matrix.  (Spec §4.2 `generate_market_state`;
it is inlined inside `optimize_portfolio` in the code.) -/
structure MarketState (n : ℕ) where
  expected_returns : Fin n → ℚ
  covariance : Fin n → Fin n → ℚ
deriving DecidableEq

/-- Market model generator, server.py lines 33-42:
`current_returns = base_apy/100 + np.random.normal(0, 0.02, n)` with the
random draw injected as an explicit `noise` vector, and the covariance
matrix of lines 41-42. -/
def generate_market_state {n : ℕ} (base : Fin n → ℚ) (risk : Fin n → ℚ)
    (noise : Fin n → ℚ) : MarketState n :=
  { expected_returns := fun i => base i / 100 + noise i
    covariance := cov_matrix risk }

/-- Constraint builder, server.py lines 44-53: the `if/elif/else` over
`vault_type` producing `(risk_tolerance, max_single_allocation)`.
Every string other than `"Conservative"` and `"Balanced"` takes the
`else` (Aggressive) branch. -/
def build_constraints (vault_type : String) : ℚ × ℚ :=
  if vault_type = "Conservative" then (0.1, 0.4)
  else if vault_type = "Balanced" then (0.2, 0.6)
  else (0.4, 0.8)

/-- The equal-weight vector `[1/n]*n` used as initial guess (line 68)
and as the fallback allocation (line 77). -/
def equal_weights (n : ℕ) : Fin n → ℚ := fun _ => 1 / (n : ℚ)

/-- Oracle model of the external SciPy `minimize` call (server.py
line 71): a convergence flag `success` and the solution vector `x`.
SciPy guarantees `result.fun = objective(result.x)`; nothing in the
code re-checks the bounds or the sum constraint on `result.x`. -/
structure SolverResult (n : ℕ) where
  success : Bool
  x : Fin n → ℚ

/-- The payload assembled by `optimize_portfolio` (server.py lines
79-95): `weights` is `optimal_weights`; `alloc_values` and `alloc_apys`
are the per-protocol `value` and `apy` fields of `allocations` (weight
and return scaled by 100); `portfolio_apy` is the number formatted into
the `apy` string; `sharpe` is the `sharpe_ratio` field. -/
structure OptimizeOutput (n : ℕ) where
  weights : Fin n → ℚ
  alloc_values : Fin n → ℚ
  alloc_apys : Fin n → ℚ
  portfolio_apy : ℚ
  sharpe : ℝ

/-- `YieldOptimizer.optimize_portfolio` (server.py lines 28-95) with the
random draw and the external solver injected.  `result.fun` is the
objective (negative Sharpe ratio, line 57) at `result.x`; on success the
weights are `result.x` unchanged and the reported Sharpe is
`-result.fun`; on failure the weights fall back to equal weighting and
the reported Sharpe is the constant `1.5` (lines 73-77, 94). -/
noncomputable def optimize_portfolio (vault_type : String) (noise : Fin 4 → ℚ)
    (solver : SolverResult 4) : OptimizeOutput 4 :=
  let state := generate_market_state base_apys risk_factors noise
  let current_returns := state.expected_returns
  let C := state.covariance
  let result_fun : ℝ := -(calculate_sharpe_ratio solver.x current_returns C (3/100))
  let optimal_weights := if solver.success then solver.x else equal_weights 4
  { weights := optimal_weights
    alloc_values := fun i => optimal_weights i * 100
    alloc_apys := fun i => current_returns i * 100
    portfolio_apy := ∑ i, optimal_weights i * current_returns i * 100
    sharpe := if solver.success then -result_fun else 1.5 }

/-- One entry of the caller-supplied `current_allocations` JSON list in
the `/api/rebalance` endpoint (server.py lines 166, 173-176): a dict
carrying a protocol name and possibly a `value`; the code reads it with
`current_allocations[i].get('value', 0)`, so the value is optional. -/
structure PriorEntry where
  name : String
  value : Option ℚ
deriving DecidableEq

/-- The prior weight used for position `i` (server.py lines 174-176):
`current_weight = 0`, overwritten by `current_allocations[i].get('value', 0)`
when `i < len(current_allocations)`. -/
def prior_weight (prior : List PriorEntry) (i : ℕ) : ℚ :=
  match prior[i]? with
  | some e => e.value.getD 0
  | none => 0

/-- One emitted rebalancing trade (server.py lines 180-184). -/
structure Trade where
  protocol : String
  action : String
  amount_percent : ℚ
deriving DecidableEq

/-- The trade-computation loop of the `/api/rebalance` endpoint
(server.py lines 172-184): iterate over the target allocations by index
(`enumerate`), diff against the positional prior weight, and emit a
trade only when `abs(weight_diff) > 1`.  `targets` is the
`new_result['allocations']` list as (name, value-percent) pairs. -/
def compute_trades (targets : List (String × ℚ)) (prior : List PriorEntry) :
    List Trade :=
  (List.range targets.length).filterMap (fun i =>
    (targets[i]?).bind (fun t =>
      if 1 < |t.2 - prior_weight prior i| then
        some { protocol := t.1
               action := if 0 < t.2 - prior_weight prior i
                         then "increase" else "decrease"
               amount_percent := |t.2 - prior_weight prior i| }
      else none))

/-- Aggregate risk statistics of the `/api/risk-metrics` endpoint
(server.py lines 205-207): `np.mean`, `max`, `min` over the registry
risk factors.  Python `max`/`min` on a nonempty list are folds of the
binary max/min over the tail starting from the head. -/
def avg_risk : ℚ := registry_risk_list.sum / (registry_risk_list.length : ℚ)

/-- Python `max(risk_factors)` at server.py line 206. -/
def max_risk : ℚ :=
  match registry_risk_list with
  | [] => 0
  | x :: xs => xs.foldl max x

/-- Python `min(risk_factors)` at server.py line 207. -/
def min_risk : ℚ :=
  match registry_risk_list with
  | [] => 0
  | x :: xs => xs.foldl min x

/-- The `if/elif/else` of server.py lines 210-215 mapping the vault type
to a fixed risk score. -/
def risk_score_of (vault_type : String) : ℚ :=
  if vault_type = "Conservative" then 3.2
  else if vault_type = "Balanced" then 5.8
  else 8.1

/-- The JSON payload of `/api/risk-metrics` (server.py lines 217-223).
`volatility_estimate` is the number `avg_risk * 100` that the code
formats as the percentage string `f'{avg_risk * 100:.1f}%'`. -/
structure RiskMetricsOut where
  risk_score : ℚ
  avg_protocol_risk : ℚ
  max_protocol_risk : ℚ
  min_protocol_risk : ℚ
  volatility_estimate : ℚ
deriving DecidableEq

/-- `get_risk_metrics` (server.py lines 196-223), with the static
registry inlined; it reads nothing besides `vault_type` and the
registry, in particular no market state. -/
def get_risk_metrics (vault_type : String) : RiskMetricsOut :=
  { risk_score := risk_score_of vault_type
    avg_protocol_risk := avg_risk
    max_protocol_risk := max_risk
    min_protocol_risk := min_risk
    volatility_estimate := avg_risk * 100 }

/-- C4: the constraint builder maps Conservative to `(0.1, 0.4)`,
Balanced to `(0.2, 0.6)`, and every other string (Aggressive included)
to the else branch `(0.4, 0.8)`. -/
theorem build_constraints_spec (s : String) :
    (s = "Conservative" → build_constraints s = (0.1, 0.4)) ∧
    (s = "Balanced" → build_constraints s = (0.2, 0.6)) ∧
    (s ≠ "Conservative" → s ≠ "Balanced" → build_constraints s = (0.4, 0.8)) := by
  refine ⟨fun h => ?_, fun h => ?_, fun h1 h2 => ?_⟩
  · subst h; rfl
  · subst h; rfl
  · simp [build_constraints, h1, h2]

/-- Witness for C4: the three branches evaluated at "Conservative",
"Balanced", "Aggressive" (the last through the else branch, showing an
unrecognized-style string takes the Aggressive values). -/
theorem build_constraints_spec_witness :
    build_constraints "Conservative" = (0.1, 0.4) ∧
    build_constraints "Balanced" = (0.2, 0.6) ∧
    build_constraints "Aggressive" = (0.4, 0.8) ∧
    build_constraints "garbage" = (0.4, 0.8) :=
  ⟨(build_constraints_spec "Conservative").1 rfl,
   (build_constraints_spec "Balanced").2.1 rfl,
   (build_constraints_spec "Aggressive").2.2 (by decide) (by decide),
   (build_constraints_spec "garbage").2.2 (by decide) (by decide)⟩

/-- Concrete value of the registry mean risk factor. -/
lemma avg_risk_eval : avg_risk = 0.2 := by
  norm_num [avg_risk, registry_risk_list]

/-- Concrete value of the registry minimum risk factor. -/
lemma min_risk_eval : min_risk = 0.05 := by
  norm_num [min_risk, registry_risk_list, min_def]

/-- Concrete value of the registry maximum risk factor. -/
lemma max_risk_eval : max_risk = 0.35 := by
  norm_num [max_risk, registry_risk_list, max_def]

/-- C8: the risk score is a fixed constant per profile (3.2 / 5.8 / 8.1,
the last for every string outside the two recognized ones), the
aggregate statistics are the plain mean, min and max of the registry
risk factors (concretely 0.2, 0.05, 0.35), and the volatility estimate
is the average risk factor times 100. -/
theorem get_risk_metrics_spec (s : String) :
    (s = "Conservative" → (get_risk_metrics s).risk_score = 3.2) ∧
    (s = "Balanced" → (get_risk_metrics s).risk_score = 5.8) ∧
    (s ≠ "Conservative" → s ≠ "Balanced" → (get_risk_metrics s).risk_score = 8.1) ∧
    (get_risk_metrics s).avg_protocol_risk
      = registry_risk_list.sum / (registry_risk_list.length : ℚ) ∧
    (get_risk_metrics s).avg_protocol_risk = 0.2 ∧
    (get_risk_metrics s).min_protocol_risk = 0.05 ∧
    (get_risk_metrics s).max_protocol_risk = 0.35 ∧
    (get_risk_metrics s).volatility_estimate
      = (get_risk_metrics s).avg_protocol_risk * 100 ∧
    (get_risk_metrics s).volatility_estimate = 20 := by
  refine ⟨fun h => by subst h; rfl, fun h => by subst h; rfl,
    fun h1 h2 => by simp [get_risk_metrics, risk_score_of, h1, h2],
    rfl, ?_, ?_, ?_, rfl, ?_⟩
  · simpa [get_risk_metrics] using avg_risk_eval
  · simpa [get_risk_metrics] using min_risk_eval
  · simpa [get_risk_metrics] using max_risk_eval
  · simp only [get_risk_metrics]
    rw [avg_risk_eval]
    norm_num

/-- Witness for C8: the metrics evaluated at the three profile strings
and at an unrecognized one. -/
theorem get_risk_metrics_spec_witness :
    (get_risk_metrics "Conservative").risk_score = 3.2 ∧
    (get_risk_metrics "Balanced").risk_score = 5.8 ∧
    (get_risk_metrics "Aggressive").risk_score = 8.1 ∧
    (get_risk_metrics "whatever").risk_score = 8.1 ∧
    (get_risk_metrics "Balanced").avg_protocol_risk = 0.2 ∧
    (get_risk_metrics "Balanced").min_protocol_risk = 0.05 ∧
    (get_risk_metrics "Balanced").max_protocol_risk = 0.35 ∧
    (get_risk_metrics "Balanced").volatility_estimate = 20 :=
  ⟨(get_risk_metrics_spec "Conservative").1 rfl,
   (get_risk_metrics_spec "Balanced").2.1 rfl,
   (get_risk_metrics_spec "Aggressive").2.2.1 (by decide) (by decide),
   (get_risk_metrics_spec "whatever").2.2.1 (by decide) (by decide),
   (get_risk_metrics_spec "Balanced").2.2.2.2.1,
   (get_risk_metrics_spec "Balanced").2.2.2.2.2.1,
   (get_risk_metrics_spec "Balanced").2.2.2.2.2.2.1,
   (get_risk_metrics_spec "Balanced").2.2.2.2.2.2.2.2⟩

/-- C5: a trade appears in the rebalance output exactly when some target
position has an absolute weight difference strictly above 1 percentage
point, and then its action is increase when the difference is positive
(decrease otherwise) and its amount is the absolute difference. -/
theorem compute_trades_mem (targets : List (String × ℚ)) (prior : List PriorEntry)
    (t : Trade) :
    t ∈ compute_trades targets prior ↔
      ∃ i, ∃ hi : i < targets.length,
        1 < |targets[i].2 - prior_weight prior i| ∧
        t = { protocol := targets[i].1
              action := if 0 < targets[i].2 - prior_weight prior i
                        then "increase" else "decrease"
              amount_percent := |targets[i].2 - prior_weight prior i| } := by
  unfold compute_trades
  rw [List.mem_filterMap]
  constructor
  · rintro ⟨i, hmem, hf⟩
    rw [List.mem_range] at hmem
    rw [List.getElem?_eq_getElem hmem, Option.some_bind] at hf
    by_cases hd : 1 < |targets[i].2 - prior_weight prior i|
    · rw [if_pos hd] at hf
      exact ⟨i, hmem, hd, (Option.some_inj.mp hf).symm⟩
    · rw [if_neg hd] at hf
      cases hf
  · rintro ⟨i, hi, hd, ht⟩
    refine ⟨i, List.mem_range.mpr hi, ?_⟩
    rw [List.getElem?_eq_getElem hi, Option.some_bind, if_pos hd, ht]

/-- Witness for C5: a weight difference of exactly 1.01 points emits the
increase trade for that protocol, and one of exactly 1.00 points emits
no trade at all. -/
theorem compute_trades_mem_witness :
    ({ protocol := "Strata Finance", action := "increase",
       amount_percent := 1.01 } : Trade)
      ∈ compute_trades [("Strata Finance", 51.01)] [⟨"Strata Finance", some 50⟩] ∧
    compute_trades [("Strata Finance", 51)] [⟨"Strata Finance", some 50⟩] = [] := by
  have habs : |(51.01 : ℚ) - 50| = 1.01 := by
    rw [show (51.01 : ℚ) - 50 = 1.01 by norm_num]
    rw [abs_of_pos (by norm_num)]
  constructor
  · refine (compute_trades_mem _ _ _).mpr ⟨0, by norm_num, ?_, ?_⟩
    · show 1 < |(51.01 : ℚ) - prior_weight _ 0|
      simp only [prior_weight, List.getElem?_cons_zero, Option.getD_some]
      rw [habs]; norm_num
    · show _ = Trade.mk _ _ _
      simp only [prior_weight, List.getElem?_cons_zero, Option.getD_some,
        List.getElem_cons_zero]
      rw [habs, if_pos (by norm_num : (0:ℚ) < 51.01 - 50)]
  · rw [List.eq_nil_iff_forall_not_mem]
    intro t ht
    obtain ⟨i, hi, hd, -⟩ := (compute_trades_mem _ _ _).mp ht
    have hi0 : i = 0 := by simpa using Nat.lt_one_iff.mp (by simpa using hi)
    subst hi0
    revert hd
    simp only [prior_weight, List.getElem?_cons_zero, Option.getD_some,
      List.getElem_cons_zero]
    rw [show (51 : ℚ) - 50 = 1 by norm_num, abs_of_pos (by norm_num : (0:ℚ) < 1)]
    norm_num

/-- C6: rebalancing at the fixed point: when the positional prior weight
equals the target weight at every target position, no trade is emitted. -/
theorem rebalance_idempotent (targets : List (String × ℚ)) (prior : List PriorEntry)
    (h : ∀ i (hi : i < targets.length),
      prior_weight prior i = (targets.get ⟨i, hi⟩).2) :
    compute_trades targets prior = [] := by
  unfold compute_trades
  rw [List.filterMap_eq_nil_iff]
  intro i hmem
  rw [List.mem_range] at hmem
  rw [List.getElem?_eq_getElem hmem, Option.some_bind]
  have hw := h i hmem
  simp only [List.get_eq_getElem] at hw
  rw [hw]
  norm_num

/-- Witness for C6: a two-protocol target with a prior list carrying
exactly the target weights produces an empty trade list. -/
theorem rebalance_idempotent_witness :
    compute_trades [("Strata Finance", 30), ("USDe Staking", 70)]
      [⟨"Strata Finance", some 30⟩, ⟨"USDe Staking", some 70⟩] = [] :=
  rebalance_idempotent _ _ (by
    intro i hi
    simp only [List.length_cons, List.length_nil] at hi
    interval_cases i <;> rfl)

/-- The trade loop reads the prior list only through `prior_weight` at
the target positions, so two prior lists agreeing there give the same
trades. -/
lemma compute_trades_congr (targets : List (String × ℚ)) (p1 p2 : List PriorEntry)
    (h : ∀ i, i < targets.length → prior_weight p1 i = prior_weight p2 i) :
    compute_trades targets p1 = compute_trades targets p2 := by
  unfold compute_trades
  apply List.filterMap_congr
  intro i hmem
  rw [List.mem_range] at hmem
  rw [h i hmem]

/-- C7: the prior weight for position `i` is the caller-supplied value
when the index is in range and the entry carries a value, and 0 when the
index is out of range or the value is missing; prior entries beyond the
target positions are ignored; and the correspondence is positional, not
by name (renaming every prior entry leaves the trades unchanged). -/
theorem prior_weight_positional (prior : List PriorEntry) (i : ℕ) (v : ℚ)
    (targets : List (String × ℚ)) (rename : String → String) :
    (∀ hi : i < prior.length, (prior.get ⟨i, hi⟩).value = some v →
      prior_weight prior i = v) ∧
    (prior.length ≤ i → prior_weight prior i = 0) ∧
    (∀ hi : i < prior.length, (prior.get ⟨i, hi⟩).value = none →
      prior_weight prior i = 0) ∧
    compute_trades targets (prior.take targets.length)
      = compute_trades targets prior ∧
    compute_trades targets (prior.map (fun e => ⟨rename e.name, e.value⟩))
      = compute_trades targets prior := by
  refine ⟨fun hi hv => ?_, fun hle => ?_, fun hi hv => ?_, ?_, ?_⟩
  · unfold prior_weight
    rw [List.getElem?_eq_getElem hi]
    simp only [List.get_eq_getElem] at hv
    simp [hv]
  · unfold prior_weight
    rw [List.getElem?_eq_none hle]
  · unfold prior_weight
    rw [List.getElem?_eq_getElem hi]
    simp only [List.get_eq_getElem] at hv
    simp [hv]
  · apply compute_trades_congr
    intro j hj
    unfold prior_weight
    rw [List.getElem?_take_of_lt hj]
  · apply compute_trades_congr
    intro j hj
    unfold prior_weight
    rw [List.getElem?_map]
    cases prior[j]? <;> rfl

/-- Witness for C7: a present value is used, an out-of-range index and a
missing value default to 0, truncating the prior list at the number of
targets changes nothing, and renaming every prior entry changes
nothing. -/
theorem prior_weight_positional_witness :
    prior_weight [⟨"A", some 12⟩, ⟨"B", none⟩] 0 = 12 ∧
    prior_weight [⟨"A", some 12⟩, ⟨"B", none⟩] 5 = 0 ∧
    prior_weight [⟨"A", some 12⟩, ⟨"B", none⟩] 1 = 0 ∧
    compute_trades [("A", 40)]
        (([⟨"A", some 12⟩, ⟨"B", none⟩] : List PriorEntry).take
          ([("A", (40:ℚ))]).length)
      = compute_trades [("A", 40)] [⟨"A", some 12⟩, ⟨"B", none⟩] ∧
    compute_trades [("A", 40)]
        (([⟨"A", some 12⟩, ⟨"B", none⟩] : List PriorEntry).map
          (fun e => ⟨String.append "X" e.name, e.value⟩))
      = compute_trades [("A", 40)] [⟨"A", some 12⟩, ⟨"B", none⟩] :=
  ⟨(prior_weight_positional [⟨"A", some 12⟩, ⟨"B", none⟩] 0 12 [("A", 40)]
      (String.append "X")).1 (by norm_num) rfl,
   (prior_weight_positional [⟨"A", some 12⟩, ⟨"B", none⟩] 5 0 [("A", 40)]
      (String.append "X")).2.1 (by norm_num),
   (prior_weight_positional [⟨"A", some 12⟩, ⟨"B", none⟩] 1 0 [("A", 40)]
      (String.append "X")).2.2.1 (by norm_num) rfl,
   (prior_weight_positional [⟨"A", some 12⟩, ⟨"B", none⟩] 0 0 [("A", 40)]
      (String.append "X")).2.2.2.1,
   (prior_weight_positional [⟨"A", some 12⟩, ⟨"B", none⟩] 0 0 [("A", 40)]
      (String.append "X")).2.2.2.2⟩

/-- Quadratic-form identity for the generated covariance matrix:
`2 wᵀΣw = (Σᵢ rᵢwᵢ)² + Σᵢ (rᵢwᵢ)²`, splitting the matrix into the rank-one
part `½ r rᵀ` and the diagonal part `½ diag(r²)`. -/
lemma quad_form_cov {n : ℕ} (r w : Fin n → ℚ) :
    2 * quad_form (cov_matrix r) w
      = (∑ i, r i * w i) ^ 2 + ∑ i, (r i * w i) ^ 2 := by
  unfold quad_form cov_matrix
  have lhs_eq : 2 * ∑ i, w i * ∑ j, (if i = j then r i ^ 2
        else r i * r j * (1/2)) * w j
      = ∑ i, ∑ j, ((r i * w i) * (r j * w j)
          + (if i = j then (r i * w i) * (r j * w j) else 0)) := by
    rw [Finset.mul_sum]
    refine Finset.sum_congr rfl (fun i _ => ?_)
    rw [Finset.mul_sum, Finset.mul_sum]
    refine Finset.sum_congr rfl (fun j _ => ?_)
    by_cases hij : i = j
    · subst hij
      simp only [eq_self_iff_true, if_true]
      ring
    · simp only [if_neg hij]
      ring
  rw [lhs_eq]
  simp only [Finset.sum_add_distrib]
  congr 1
  · rw [sq, Finset.sum_mul_sum]
  · refine Finset.sum_congr rfl (fun i _ => ?_)
    rw [Fintype.sum_ite_eq i (fun j => (r i * w i) * (r j * w j)), sq]

/-- C3: for risk factors in (0, 1] the generated covariance matrix has
squared risk factors on the diagonal, half the product of risk factors
off it, is symmetric, and is positive semi-definite. -/
theorem cov_matrix_spec {n : ℕ} (r : Fin n → ℚ)
    (hr : ∀ i, 0 < r i ∧ r i ≤ 1) :
    (∀ i, cov_matrix r i i = r i ^ 2) ∧
    (∀ i j, i ≠ j → cov_matrix r i j = r i * r j * (1/2)) ∧
    (∀ i j, cov_matrix r i j = cov_matrix r j i) ∧
    (∀ w : Fin n → ℚ, 0 ≤ quad_form (cov_matrix r) w) := by
  refine ⟨fun i => by simp [cov_matrix], fun i j hij => by simp [cov_matrix, hij],
    fun i j => ?_, fun w => ?_⟩
  · unfold cov_matrix
    by_cases hij : i = j
    · subst hij; rfl
    · rw [if_neg hij, if_neg (Ne.symm hij)]
      ring
  · have hid := quad_form_cov r w
    have h1 : 0 ≤ (∑ i, r i * w i) ^ 2 := sq_nonneg _
    have h2 : 0 ≤ ∑ i, (r i * w i) ^ 2 :=
      Finset.sum_nonneg (fun i _ => sq_nonneg _)
    linarith

/-- Witness for C3: the registry risk factors lie in (0, 1], and the
claimed entries, symmetry and positive semi-definiteness hold at
concrete indices and at a concrete weight vector. -/
theorem cov_matrix_spec_witness :
    (∀ i, 0 < risk_factors i ∧ risk_factors i ≤ 1) ∧
    cov_matrix risk_factors 0 0 = risk_factors 0 ^ 2 ∧
    cov_matrix risk_factors 0 1 = risk_factors 0 * risk_factors 1 * (1/2) ∧
    cov_matrix risk_factors 0 1 = cov_matrix risk_factors 1 0 ∧
    0 ≤ quad_form (cov_matrix risk_factors) (fun _ => 1) := by
  have hr : ∀ i, 0 < risk_factors i ∧ risk_factors i ≤ 1 := by
    intro i
    fin_cases i <;> constructor <;> norm_num [risk_factors]
  exact ⟨hr, (cov_matrix_spec risk_factors hr).1 0,
    (cov_matrix_spec risk_factors hr).2.1 0 1 (by decide),
    (cov_matrix_spec risk_factors hr).2.2.1 0 1,
    (cov_matrix_spec risk_factors hr).2.2.2 (fun _ => 1)⟩

/-- C9: the market model generator is deterministic given a fixed random
source: two runs over the registry with the same per-protocol draws
produce the same market state, whose expected returns are
`base_apy/100` plus the drawn noise and whose covariance is the
generated matrix. -/
theorem generate_market_state_deterministic (noise1 noise2 : Fin 4 → ℚ)
    (h : ∀ i, noise1 i = noise2 i) :
    generate_market_state base_apys risk_factors noise1
      = generate_market_state base_apys risk_factors noise2 ∧
    (∀ i, (generate_market_state base_apys risk_factors noise1).expected_returns i
      = base_apys i / 100 + noise1 i) ∧
    (generate_market_state base_apys risk_factors noise1).covariance
      = cov_matrix risk_factors := by
  refine ⟨?_, fun i => rfl, rfl⟩
  have hn : noise1 = noise2 := funext h
  rw [hn]

/-- Witness for C9: two textually distinct but pointwise-equal noise
vectors give identical market states, and the first expected return is
the first base APY over 100 plus the draw. -/
theorem generate_market_state_deterministic_witness :
    generate_market_state base_apys risk_factors (fun _ => 0.01)
      = generate_market_state base_apys risk_factors (fun _ => 2 / 200) ∧
    (generate_market_state base_apys risk_factors (fun _ => 0.01)).expected_returns 0
      = base_apys 0 / 100 + 0.01 := by
  have h := generate_market_state_deterministic (fun _ => 0.01) (fun _ => 2 / 200)
    (fun i => by norm_num)
  exact ⟨h.1, h.2.1 0⟩

/-- C10: any weight vector that `optimize_portfolio` can feed to
`calculate_sharpe_ratio` has every entry at least 0.05, and against the
registry covariance matrix its variance `wᵀΣw` is strictly positive, so
the square-root volatility is strictly positive and the unguarded
division in the Sharpe ratio never divides by zero. -/
theorem sharpe_denominator_pos (w : Fin 4 → ℚ) (hw : ∀ i, 0.05 ≤ w i) :
    0 < quad_form (cov_matrix risk_factors) w ∧
    0 < Real.sqrt ((quad_form (cov_matrix risk_factors) w : ℚ) : ℝ) := by
  have key : 0 < quad_form (cov_matrix risk_factors) w := by
    have hid := quad_form_cov risk_factors w
    have h1 : 0 ≤ (∑ i, risk_factors i * w i) ^ 2 := sq_nonneg _
    have h2 : (risk_factors 0 * w 0) ^ 2 ≤ ∑ i, (risk_factors i * w i) ^ 2 :=
      Finset.single_le_sum (fun i _ => sq_nonneg (risk_factors i * w i))
        (Finset.mem_univ 0)
    have h3 : 0 < (risk_factors 0 * w 0) ^ 2 := by
      have hr0 : risk_factors 0 = 0.15 := rfl
      have hw0 : (0 : ℚ) < w 0 := lt_of_lt_of_le (by norm_num) (hw 0)
      have : 0 < risk_factors 0 * w 0 := by
        rw [hr0]
        positivity
      positivity
    linarith
  refine ⟨key, Real.sqrt_pos.mpr ?_⟩
  exact_mod_cast key

/-- Witness for C10: the equal-weight vector meets the 0.05 lower bound
and yields a strictly positive variance and volatility. -/
theorem sharpe_denominator_pos_witness :
    (∀ i, (0.05 : ℚ) ≤ equal_weights 4 i) ∧
    0 < quad_form (cov_matrix risk_factors) (equal_weights 4) ∧
    0 < Real.sqrt ((quad_form (cov_matrix risk_factors) (equal_weights 4) : ℚ) : ℝ) := by
  have hw : ∀ i, (0.05 : ℚ) ≤ equal_weights 4 i := by
    intro i
    norm_num [equal_weights]
  exact ⟨hw, (sharpe_denominator_pos (equal_weights 4) hw).1,
    (sharpe_denominator_pos (equal_weights 4) hw).2⟩

/-- Counterexample to C1: `optimize_portfolio` performs no defensive
clamping or renormalization.  When the solver reports success with a
vector violating the Conservative bound (weight 0.85 > 0.4), that vector
is returned unchanged, so the claimed bounds invariant fails. -/
theorem optimize_no_clamp_counterexample :
    (optimize_portfolio "Conservative" (fun _ => 0)
        ⟨true, ![0.85, 0.05, 0.05, 0.05]⟩).weights 0 = 0.85 ∧
    ¬ ((optimize_portfolio "Conservative" (fun _ => 0)
        ⟨true, ![0.85, 0.05, 0.05, 0.05]⟩).weights 0
          ≤ (build_constraints "Conservative").2) := by
  have hw : (optimize_portfolio "Conservative" (fun _ => 0)
      ⟨true, ![0.85, 0.05, 0.05, 0.05]⟩).weights 0 = 0.85 := by
    simp [optimize_portfolio]
  refine ⟨hw, ?_⟩
  rw [hw]
  norm_num [build_constraints]

/-- C1 as amended: in the fallback case (solver failure) the returned
weights sum to 1 within 1e-6 and each lies within
[0.05, max_single_allocation] for every profile; on solver success the
code returns the solver vector unchanged, with no defensive clamping,
so the invariants then hold only if the solver output satisfies them. -/
theorem optimize_invariants_amended (vault_type : String)
    (noise : Fin 4 → ℚ) (solver : SolverResult 4) :
    (solver.success = false →
      |(∑ i, (optimize_portfolio vault_type noise solver).weights i) - 1|
          ≤ 1 / 1000000 ∧
      ∀ i, 0.05 ≤ (optimize_portfolio vault_type noise solver).weights i ∧
        (optimize_portfolio vault_type noise solver).weights i
          ≤ (build_constraints vault_type).2) ∧
    (solver.success = true →
      (optimize_portfolio vault_type noise solver).weights = solver.x) := by
  constructor
  · intro hs
    have hwe : (optimize_portfolio vault_type noise solver).weights
        = equal_weights 4 := by
      simp [optimize_portfolio, hs]
    rw [hwe]
    constructor
    · have hsum : ∑ i : Fin 4, equal_weights 4 i = 1 := by
        simp [equal_weights]
      rw [hsum]
      norm_num
    · intro i
      have hei : equal_weights 4 i = 1/4 := by norm_num [equal_weights]
      rw [hei]
      constructor
      · norm_num
      · unfold build_constraints
        split_ifs <;> norm_num
  · intro hs
    simp [optimize_portfolio, hs]

/-- Witness for the amended C1: with a failing solver the Balanced
profile gets the equal-weight fallback satisfying both invariants, and
with a succeeding solver the returned weights are the solver vector. -/
theorem optimize_invariants_amended_witness :
    |(∑ i, (optimize_portfolio "Balanced" (fun _ => 0)
        ⟨false, fun _ => 0⟩).weights i) - 1| ≤ 1 / 1000000 ∧
    0.05 ≤ (optimize_portfolio "Balanced" (fun _ => 0)
        ⟨false, fun _ => 0⟩).weights 0 ∧
    (optimize_portfolio "Balanced" (fun _ => 0)
        ⟨false, fun _ => 0⟩).weights 0 ≤ (build_constraints "Balanced").2 ∧
    (optimize_portfolio "Balanced" (fun _ => 0)
        ⟨true, ![0.3, 0.3, 0.2, 0.2]⟩).weights = ![0.3, 0.3, 0.2, 0.2] := by
  have h := optimize_invariants_amended "Balanced" (fun _ => 0) ⟨false, fun _ => 0⟩
  have h2 := optimize_invariants_amended "Balanced" (fun _ => 0)
    ⟨true, ![0.3, 0.3, 0.2, 0.2]⟩
  exact ⟨(h.1 rfl).1, ((h.1 rfl).2 0).1, ((h.1 rfl).2 0).2, h2.2 rfl⟩

/-- C2: on solver failure `optimize_portfolio` returns the 1/n
equal-weight allocation (never an error) and reports the fixed default
Sharpe ratio 1.5; exactly on solver success it returns the solver
weights and reports the (positively signed) Sharpe ratio of those
weights, i.e. the negated minimized objective. -/
theorem optimize_fallback_spec (vault_type : String)
    (noise : Fin 4 → ℚ) (solver : SolverResult 4) :
    (solver.success = false →
      (optimize_portfolio vault_type noise solver).weights = equal_weights 4 ∧
      (optimize_portfolio vault_type noise solver).sharpe = 1.5) ∧
    (solver.success = true →
      (optimize_portfolio vault_type noise solver).weights = solver.x ∧
      (optimize_portfolio vault_type noise solver).sharpe
        = calculate_sharpe_ratio solver.x
            (generate_market_state base_apys risk_factors noise).expected_returns
            (generate_market_state base_apys risk_factors noise).covariance
            (3/100)) := by
  constructor
  · intro hs
    constructor <;> simp [optimize_portfolio, hs]
  · intro hs
    constructor <;> simp [optimize_portfolio, hs]

/-- Witness for C2: with a failing solver the Conservative profile gets
the equal-weight fallback and Sharpe 1.5; with a succeeding solver the
reported Sharpe is the Sharpe ratio of the returned weight vector. -/
theorem optimize_fallback_spec_witness :
    (optimize_portfolio "Conservative" (fun _ => 0.01)
        ⟨false, fun _ => 0⟩).weights = equal_weights 4 ∧
    (optimize_portfolio "Conservative" (fun _ => 0.01)
        ⟨false, fun _ => 0⟩).sharpe = 1.5 ∧
    (optimize_portfolio "Conservative" (fun _ => 0.01)
        ⟨true, equal_weights 4⟩).sharpe
      = calculate_sharpe_ratio (equal_weights 4)
          (generate_market_state base_apys risk_factors
            (fun _ => 0.01)).expected_returns
          (generate_market_state base_apys risk_factors
            (fun _ => 0.01)).covariance (3/100) := by
  have h1 := optimize_fallback_spec "Conservative" (fun _ => 0.01) ⟨false, fun _ => 0⟩
  have h2 := optimize_fallback_spec "Conservative" (fun _ => 0.01)
    ⟨true, equal_weights 4⟩
  exact ⟨(h1.1 rfl).1, (h1.1 rfl).2, (h2.2 rfl).2⟩
